import Mathlib

/-!
# Verification of the `1lm` command-generation pipeline

A shallow embedding of the Go sources of `pixielabs/1lm`, together with
proofs about the generation/safety-evaluation pipeline and its terminal
UI stages.

Conventions:
* Go slices of `commands.Option` live in an explicit `Heap` (a list of
  slices, addressed by allocation index) wherever aliasing matters;
  pure data flows are embedded as plain Lean functions.
* The two external LLM calls (generation, safety scoring) are external
  collaborators; each embedded function that consumes one takes the
  call's outcome as an `Except String _` parameter.
* Go `error` values are embedded as `Option String` / `Except String`.
-/

namespace OneLm

/-! ## Data model (`safety/evaluator.go`, `commands/option.go`, `llm/client.go`) -/

/-- `safety.RiskLevel`: severity of detected risk (`RiskNone`, `RiskLow`, `RiskHigh`). -/
inductive RiskLevel where
  | RiskNone
  | RiskLow
  | RiskHigh
deriving DecidableEq, Repr

export RiskLevel (RiskNone RiskLow RiskHigh)

/-- `safety.RiskInfo`: details about detected risks. -/
structure RiskInfo where
  level : RiskLevel
  message : String
deriving DecidableEq, Repr

/-- `commands.Option`: a command option with metadata; `risk` is the Go
pointer field (`nil` = `none`). Named `CmdOption` because `Option` is
taken by the Lean core library. -/
structure CmdOption where
  title : String
  command : String
  description : String
  risk : Option RiskInfo
deriving DecidableEq, Repr

/-- `llm.CommandOption`: a single generated command option as returned by
the LLM client. -/
structure LLMCommandOption where
  title : String
  command : String
  description : String
deriving DecidableEq, Repr

/-- `safety.CommandRisk`: the safety evaluation for a single command, as
parsed from the structured-output response. -/
structure CommandRisk where
  command : String
  risk_level : String
  reason : String
deriving DecidableEq, Repr

/-! ## Safety evaluator (`safety/evaluator.go`) -/

/-- `safety.parseRiskLevel`: converts a string risk level to the
`RiskLevel` enum; anything other than `"low"`/`"high"` maps to `RiskNone`. -/
def parseRiskLevel (level : String) : RiskLevel :=
  if level = "low" then RiskLow
  else if level = "high" then RiskHigh
  else RiskNone

/-- The per-evaluation conversion inside `Evaluator.Evaluate`'s result
loop: a `nil` `*RiskInfo` for `RiskNone`, else the parsed level with the
reason as message. -/
def evalToRisk (ev : CommandRisk) : Option RiskInfo :=
  let level := parseRiskLevel ev.risk_level
  if level = RiskNone then none
  else some { level := level, message := ev.reason }

/-- `safety.Evaluator.Evaluate`: evaluates the commands in a single
external call.  `call` is the combined outcome of the API call, content
extraction and JSON parsing (all failure messages collapse into its
`error` case, which also covers the nil-client guard).  An empty command
list returns `ok []` before any call is made; a response whose length
differs from the command list is a hard error. -/
def Evaluate (commands : List String) (call : Except String (List CommandRisk)) :
    Except String (List (Option RiskInfo)) :=
  if commands.length = 0 then Except.ok []
  else
    match call with
    | Except.error e => Except.error e
    | Except.ok evals =>
      if evals.length ≠ commands.length then
        Except.error ("expected " ++ toString commands.length ++ " evaluations, got "
          ++ toString evals.length)
      else
        Except.ok (evals.map evalToRisk)

/-! ## Option generator (`commands` package embedded in `src/llm/mock.go`) -/

/-- `commands.Generator.Generate`: maps the external generation call's
records 1:1 into `CmdOption`s with `risk` left absent, wrapping call
errors. -/
def Generate (call : Except String (List LLMCommandOption)) :
    Except String (List CmdOption) :=
  match call with
  | Except.error e => Except.error ("failed to generate options: " ++ e)
  | Except.ok llmOptions =>
    Except.ok (llmOptions.map fun o =>
      { title := o.title, command := o.command, description := o.description, risk := none })

/-- `result[i].Risk = risk` in the `EvaluateSafety` loop: sets the risk
field at index `i` (Go would panic out of bounds; in every use the index
is in range, and the embedding leaves the list unchanged there). -/
def updateRisk (xs : List CmdOption) (i : Nat) (ri : RiskInfo) : List CmdOption :=
  match xs[i]? with
  | some o => xs.set i { o with risk := some ri }
  | none => xs

/-- One iteration of the `for i, risk := range risks` loop body of
`EvaluateSafety`: write `risk` at position `i` only when it is non-nil
with a level other than `RiskNone`. -/
def applyRisk (xs : List CmdOption) (p : Nat × Option RiskInfo) : List CmdOption :=
  match p.2 with
  | some ri => if ri.level ≠ RiskNone then updateRisk xs p.1 ri else xs
  | none => xs

/-- The `for i, risk := range risks` loop of `EvaluateSafety`, carrying
the running index. -/
def overlayLoop : Nat → List CmdOption → List (Option RiskInfo) → List CmdOption
  | _, acc, [] => acc
  | i, acc, risk :: rest => overlayLoop (i + 1) (applyRisk acc (i, risk)) rest

/-- `commands.Generator.EvaluateSafety` (value level): extracts the
ordered command strings, runs the evaluator, and overlays the risks on a
copy of the input (the copy is the starting accumulator of
`overlayLoop`). -/
def EvaluateSafety (options : List CmdOption) (call : Except String (List CommandRisk)) :
    Except String (List CmdOption) :=
  match Evaluate (options.map (·.command)) call with
  | Except.error e => Except.error e
  | Except.ok risks => Except.ok (overlayLoop 0 options risks)

/-! ## Heap model for Go slice aliasing

`EvaluateSafety` and the Selection stage manipulate Go slices whose
backing arrays can be aliased (notably by the `selected` pointer taken
with `&m.options[m.cursor]`).  We model the store of `[]commands.Option`
backing arrays as a list of slices; a reference is an allocation index. -/

/-- The store of `[]commands.Option` backing arrays. -/
abbrev Heap := List (List CmdOption)

/-- Reading a whole slice through a reference (a dangling reference
reads as the empty/nil slice). -/
def readSlice (h : Heap) (r : Nat) : List CmdOption :=
  (h[r]?).getD []

/-- Overwriting the slice a reference points at. -/
def writeSlice (h : Heap) (r : Nat) (xs : List CmdOption) : Heap :=
  h.set r xs

/-- `make`/literal allocation of a fresh slice: the new reference is the
old heap length, so it never aliases an existing slice. -/
def allocSlice (h : Heap) (xs : List CmdOption) : Heap × Nat :=
  (h ++ [xs], h.length)

/-- The `EvaluateSafety` risk loop at heap level: each iteration reads
the result slice through `rr`, conditionally sets position `i`, and
writes it back — exactly the Go `result[i].Risk = risk` statements. -/
def overlayLoopImp : Nat → Heap → Nat → List (Option RiskInfo) → Heap
  | _, hh, _, [] => hh
  | i, hh, rr, none :: rest => overlayLoopImp (i + 1) hh rr rest
  | i, hh, rr, some ri :: rest =>
    overlayLoopImp (i + 1)
      (if ri.level ≠ RiskNone then writeSlice hh rr (updateRisk (readSlice hh rr) i ri)
       else hh)
      rr rest

/-- `commands.Generator.EvaluateSafety` at heap level: reads the input
batch through `r`, runs the evaluator on the extracted command strings,
and on success allocates the fresh `result` slice (`make` + `copy`) and
runs the risk loop on it; on failure returns the error without touching
the heap. -/
def EvaluateSafetyImp (h : Heap) (r : Nat) (call : Except String (List CommandRisk)) :
    Heap × Except String Nat :=
  match Evaluate ((readSlice h r).map (·.command)) call with
  | Except.error e => (h, Except.error e)
  | Except.ok risks =>
    (overlayLoopImp 0 (allocSlice h (readSlice h r)).1 (allocSlice h (readSlice h r)).2 risks,
     Except.ok (allocSlice h (readSlice h r)).2)

/-! ## UI messages and commands (`bubbletea` shapes used by `src/ui`) -/

/-- The `tea.Cmd` values the three stages emit. -/
inductive Cmd where
  | nil
  | quit
  | tick
  | loadOptions
  | evalSafety
  | batch : Cmd → Cmd → Cmd
deriving DecidableEq, Repr

/-- The `tea.Msg` values handled by the Progress (loading) and Selection
stages.  `optionsResult` is `ui.optionsMsg` and `riskResult` is
`ui.riskResultMsg`; both carry a slice (here: a heap reference, unread
in the error case, where Go carries a nil slice) and an error. -/
inductive Msg where
  | key (s : String)
  | optionsResult (r : Nat) (err : Option String)
  | riskResult (r : Nat) (err : Option String)
  | spinnerTick
deriving DecidableEq, Repr

/-- Modelled from the spec: the external `bubbles` spinner widget,
reduced to its frame counter — a tick message advances the frame and
re-schedules a tick, every other message leaves it alone ("each tick
only updates animation frame, never pipeline state"). -/
def spinnerUpdate (s : Nat) (msg : Msg) : Nat × Cmd :=
  match msg with
  | Msg.spinnerTick => (s + 1, Cmd.tick)
  | _ => (s, Cmd.nil)

/-! ## Selection stage (`src/ui/selector.go`) -/

/-- `ui.SelectorModel`: the candidate batch is held by reference
(`optionsRef`), and `selected` is the Go pointer `&m.options[m.cursor]`
— a (slice reference, index) pair.  The render-only `width` field is
omitted (it never affects state transitions). -/
structure SelectorModel where
  optionsRef : Nat
  cursor : Nat
  selected : Option (Nat × Nat)
  quitting : Bool
  safetyDone : Bool
  spinner : Nat
deriving DecidableEq, Repr

/-- `ui.NewSelector`: cursor at 0, nothing selected, fresh spinner. -/
def NewSelector (r : Nat) : SelectorModel :=
  { optionsRef := r, cursor := 0, selected := none, quitting := false,
    safetyDone := false, spinner := 0 }

/-- `SelectorModel.Init`: fire the background safety evaluation and the
spinner tick. -/
def SelectorModel.initCmd : Cmd :=
  Cmd.batch Cmd.evalSafety Cmd.tick

/-- `ui.SelectorModel.Update`.  The heap is threaded through but never
written: key handling and message handling only read it (for
`len(m.options)`) and rebind references. -/
def SelectorModel.update (h : Heap) (m : SelectorModel) (msg : Msg) :
    Heap × SelectorModel × Cmd :=
  match msg with
  | Msg.key s =>
    if s = "ctrl+c" ∨ s = "q" then (h, { m with quitting := true }, Cmd.quit)
    else if s = "up" ∨ s = "k" then
      (h, { m with cursor := if m.cursor > 0 then m.cursor - 1 else m.cursor }, Cmd.nil)
    else if s = "down" ∨ s = "j" then
      (h, { m with cursor :=
        if m.cursor < (readSlice h m.optionsRef).length - 1 then m.cursor + 1
        else m.cursor }, Cmd.nil)
    else if s = "enter" then
      (h, { m with selected := some (m.optionsRef, m.cursor), quitting := true }, Cmd.quit)
    else (h, m, Cmd.nil)
  | Msg.riskResult r err =>
    let m1 := { m with safetyDone := true }
    match err with
    | some _ => (h, m1, Cmd.nil)
    | none => (h, { m1 with optionsRef := r }, Cmd.nil)
  | Msg.spinnerTick =>
    if !m.safetyDone then
      let su := spinnerUpdate m.spinner Msg.spinnerTick
      (h, { m with spinner := su.1 }, su.2)
    else (h, m, Cmd.nil)
  | Msg.optionsResult _ _ => (h, m, Cmd.nil)

/-- `ui.SelectorModel.Selected`: dereference the stored pointer, `none`
when nothing was selected. -/
def SelectorModel.selectedOption (h : Heap) (m : SelectorModel) : Option CmdOption :=
  m.selected.bind fun p => (readSlice h p.1)[p.2]?

/-- Running the `m.evaluateSafety` command: the blocking
`EvaluateSafety` call happens off the event loop and its outcome is
delivered back as a `riskResultMsg` (a nil slice, here the unread
reference 0, accompanies an error). -/
def SelectorModel.evaluateSafetyRun (h : Heap) (m : SelectorModel)
    (call : Except String (List CommandRisk)) : Heap × Msg :=
  match EvaluateSafetyImp h m.optionsRef call with
  | (h1, Except.ok r) => (h1, Msg.riskResult r none)
  | (h1, Except.error e) => (h1, Msg.riskResult 0 (some e))

/-- The Selection stage's handling of a completed background safety
pass: run the background command, then feed its message to `Update`. -/
def SelectorModel.riskStep (h : Heap) (m : SelectorModel)
    (call : Except String (List CommandRisk)) : Heap × SelectorModel × Cmd :=
  SelectorModel.update (SelectorModel.evaluateSafetyRun h m call).1 m
    (SelectorModel.evaluateSafetyRun h m call).2

/-- Feeding a sequence of key messages to the Selection stage, threading
the heap and the model through each `Update`. -/
def SelectorModel.applyKeys (h : Heap) (m : SelectorModel) : List String → Heap × SelectorModel
  | [] => (h, m)
  | s :: rest =>
    SelectorModel.applyKeys (SelectorModel.update h m (Msg.key s)).1
      (SelectorModel.update h m (Msg.key s)).2.1 rest

/-! ## Progress stage (`src/ui/loading.go`) -/

/-- `ui.LoadingModel` (the `generator` handle is external state and
carries no data relevant to the transitions). -/
structure LoadingModel where
  query : String
  err : Option String
  spinner : Nat
deriving DecidableEq, Repr

/-- `ui.NewLoadingModel`. -/
def NewLoadingModel (query : String) : LoadingModel :=
  { query := query, err := none, spinner := 0 }

/-- `LoadingModel.Init`: start the spinner and kick off the API call. -/
def LoadingModel.initCmd : Cmd :=
  Cmd.batch Cmd.tick Cmd.loadOptions

/-- `ui.InputModel` (from the input-stage source in `src/unnamed`):
`value` is the external text-input widget's buffer
(`m.textInput.Value()`). -/
structure InputModel where
  value : String
  submitted : Bool
  query : String
deriving DecidableEq, Repr

/-- `ui.NewInputModel`: empty focused buffer, nothing submitted. -/
def NewInputModel : InputModel :=
  { value := "", submitted := false, query := "" }

/-- The three UI stages (`tea.Model` instances that can be the current
screen). -/
inductive Model where
  | input : InputModel → Model
  | loading : LoadingModel → Model
  | selector : SelectorModel → Model
deriving DecidableEq, Repr

/-- `ui.LoadingModel.Update`: quit keys quit; other keys fall through
the inner switch to `return m, nil`; an `optionsMsg` either records the
error (call error or empty batch) and quits, or hands the batch to a
freshly constructed Selection stage; everything else feeds the
spinner. -/
def LoadingModel.update (h : Heap) (m : LoadingModel) (msg : Msg) :
    Heap × Model × Cmd :=
  match msg with
  | Msg.key s =>
    if s = "ctrl+c" ∨ s = "q" then (h, Model.loading m, Cmd.quit)
    else (h, Model.loading m, Cmd.nil)
  | Msg.optionsResult r err =>
    match err with
    | some e => (h, Model.loading { m with err := some e }, Cmd.quit)
    | none =>
      if (readSlice h r).length = 0 then
        (h, Model.loading { m with err := some "no options generated" }, Cmd.quit)
      else
        (h, Model.selector (NewSelector r), SelectorModel.initCmd)
  | _ =>
    let su := spinnerUpdate m.spinner msg
    (h, Model.loading { m with spinner := su.1 }, su.2)

/-- Running the `m.loadOptions` command: `Generate` runs off the event
loop; its fresh output slice is allocated and the outcome delivered as
an `optionsMsg` (a nil slice, here the unread reference 0, accompanies
an error). -/
def LoadingModel.loadOptionsRun (h : Heap)
    (call : Except String (List LLMCommandOption)) : Heap × Msg :=
  match Generate call with
  | Except.error e => (h, Msg.optionsResult 0 (some e))
  | Except.ok opts =>
    let alloc := allocSlice h opts
    (alloc.1, Msg.optionsResult alloc.2 none)

/-- The Progress stage's handling of a completed generation call: run
the background command, then feed its message to `Update`. -/
def LoadingModel.loadStep (h : Heap) (m : LoadingModel)
    (call : Except String (List LLMCommandOption)) : Heap × Model × Cmd :=
  let run := LoadingModel.loadOptionsRun h call
  LoadingModel.update run.1 m run.2

/-! ## Input stage (input-stage source in `src/unnamed`) -/

/-- The `tea.KeyMsg.Type` values the input stage switches on, plus the
messages it forwards to the text-input widget. -/
inductive InputMsg where
  | keyEnter
  | keyCtrlC
  | keyEsc
  | typed (s : String)
  | windowSize (w : Nat)
deriving DecidableEq, Repr

/-- `ui.InputModel.Update`: enter copies the buffer into `query` and —
only when it is non-empty — hands off to a fresh Progress stage; Ctrl+C
and Esc quit; other messages go to the external text-input widget
(modelled from the spec: "typing mutates the buffer"; resize has no
semantic effect). -/
def InputModel.update (m : InputModel) (msg : InputMsg) : Model × Cmd :=
  match msg with
  | InputMsg.keyEnter =>
    let q := m.value
    if q ≠ "" then
      (Model.loading (NewLoadingModel q), LoadingModel.initCmd)
    else
      (Model.input { m with query := q }, Cmd.nil)
  | InputMsg.keyCtrlC => (Model.input m, Cmd.quit)
  | InputMsg.keyEsc => (Model.input m, Cmd.quit)
  | InputMsg.typed s => (Model.input { m with value := m.value ++ s }, Cmd.nil)
  | InputMsg.windowSize _ => (Model.input m, Cmd.nil)

/-! ## Output dispatcher (`src/output/handler.go`) -/

/-- The success/failure of the three external clipboard backends
(`pbcopy`, `xclip`, `wl-copy`), in the order they are tried. -/
structure ClipboardBackends where
  pbcopy : Bool
  xclip : Bool
  wlcopy : Bool
deriving DecidableEq, Repr

/-- `output.Handler.outputShellFunction`: `fmt.Println(cmd.Command)` —
append the command text and one newline to stdout, no error. -/
def outputShellFunction (stdout : String) (c : CmdOption) : String × Option String :=
  (stdout ++ c.command ++ "\n", none)

/-- `output.Handler.outputStdout`: a confirmation-decorated rendering. -/
def outputStdout (stdout : String) (c : CmdOption) : String × Option String :=
  (stdout ++ "\n✓ Selected command:\n" ++ c.command ++ "\n", none)

/-- `output.Handler.outputClipboard`: try the backends in order; first
success prints a confirmation; if all fail, print a notice and fall back
to `outputStdout`. -/
def outputClipboard (b : ClipboardBackends) (stdout : String) (c : CmdOption) :
    String × Option String :=
  if b.pbcopy then (stdout ++ "\n✓ Copied to clipboard: " ++ c.command ++ "\n", none)
  else if b.xclip then (stdout ++ "\n✓ Copied to clipboard: " ++ c.command ++ "\n", none)
  else if b.wlcopy then (stdout ++ "\n✓ Copied to clipboard: " ++ c.command ++ "\n", none)
  else outputStdout (stdout ++ "\n⚠ Clipboard not available\n") c

/-- `output.Handler.Output`: dispatch on the mode string; anything that
is neither `shell-function` nor `stdout` (including the default
`clipboard`) takes the clipboard path. -/
def Output (mode : String) (b : ClipboardBackends) (stdout : String) (c : CmdOption) :
    String × Option String :=
  if mode = "shell-function" then outputShellFunction stdout c
  else if mode = "stdout" then outputStdout stdout c
  else outputClipboard b stdout c

/-! ## Generation client validation (`llm.AnthropicClient.GenerateOptions`) -/

/-- The final validation of `AnthropicClient.GenerateOptions` after the
response JSON has been parsed: only an empty `options` array is rejected
(`"no options returned"`). -/
def GenerateOptionsValidate (parsed : List LLMCommandOption) :
    Except String (List LLMCommandOption) :=
  if parsed.length = 0 then Except.error "no options returned"
  else Except.ok parsed

/-- The net effect of one `EvaluateSafety` loop iteration on the
candidate at its own position: overlay the risk if it is non-nil with a
level other than `RiskNone`, keep the candidate otherwise. -/
def overlayOne (o : CmdOption) (r : Option RiskInfo) : CmdOption :=
  match r with
  | some ri => if ri.level ≠ RiskNone then { o with risk := some ri } else o
  | none => o

/-! ## Basic heap lemmas -/

theorem list_set_getElem_self {α : Type _} (l : List α) (i : Nat) (hi : i < l.length) :
    l.set i (l.get ⟨i, hi⟩) = l := by
  induction l generalizing i with
  | nil => rfl
  | cons x xs ih =>
    cases i with
    | zero => rfl
    | succ n =>
      have hn : n < xs.length := Nat.lt_of_succ_lt_succ hi
      show x :: xs.set n (xs.get ⟨n, hn⟩) = x :: xs
      rw [ih n hn]

theorem list_set_concat_self {α : Type _} (l : List α) (a b : α) :
    (l ++ [a]).set l.length b = l ++ [b] := by
  induction l with
  | nil => rfl
  | cons x xs ih =>
    simp only [List.cons_append, List.length_cons, List.set_cons_succ]
    rw [ih]

theorem readSlice_writeSlice_self (h : Heap) (r : Nat) (xs : List CmdOption)
    (hr : r < h.length) : readSlice (writeSlice h r xs) r = xs := by
  simp [readSlice, writeSlice, List.getElem?_set_eq_of_lt xs hr]

theorem readSlice_writeSlice_ne (h : Heap) (r r' : Nat) (xs : List CmdOption)
    (hne : r ≠ r') : readSlice (writeSlice h r xs) r' = readSlice h r' := by
  simp [readSlice, writeSlice, List.getElem?_set_ne hne]

theorem writeSlice_length (h : Heap) (r : Nat) (xs : List CmdOption) :
    (writeSlice h r xs).length = h.length :=
  List.length_set h r xs

theorem writeSlice_writeSlice (h : Heap) (r : Nat) (a b : List CmdOption) :
    writeSlice (writeSlice h r a) r b = writeSlice h r b :=
  List.set_set a b h r

theorem writeSlice_readSlice_self (h : Heap) (r : Nat) (hr : r < h.length) :
    writeSlice h r (readSlice h r) = h := by
  have hread : readSlice h r = h.get ⟨r, hr⟩ := by
    simp [readSlice, List.getElem?_eq_getElem hr]
  rw [writeSlice, hread, list_set_getElem_self]

theorem readSlice_append_left (h l : Heap) (r : Nat) (hr : r < h.length) :
    readSlice (h ++ l) r = readSlice h r := by
  simp [readSlice, List.getElem?_append_left hr]

theorem readSlice_concat_self (h : Heap) (xs : List CmdOption) :
    readSlice (h ++ [xs]) h.length = xs := by
  simp [readSlice, List.getElem?_concat_length]

/-! ## The risk-overlay loop: lengths, heap collapse, positional form -/

theorem updateRisk_length (xs : List CmdOption) (i : Nat) (ri : RiskInfo) :
    (updateRisk xs i ri).length = xs.length := by
  unfold updateRisk
  cases hx : xs[i]? with
  | none => rfl
  | some o => simp

theorem applyRisk_length (xs : List CmdOption) (p : Nat × Option RiskInfo) :
    (applyRisk xs p).length = xs.length := by
  unfold applyRisk
  cases p.2 with
  | none => rfl
  | some ri =>
    by_cases hl : ri.level ≠ RiskNone
    · simp [hl, updateRisk_length]
    · simp [hl]

theorem overlayLoop_length (risks : List (Option RiskInfo)) :
    ∀ (i : Nat) (xs : List CmdOption), (overlayLoop i xs risks).length = xs.length := by
  induction risks with
  | nil => intro i xs; rfl
  | cons r rest ih =>
    intro i xs
    rw [overlayLoop, ih, applyRisk_length]

theorem overlayLoopImp_collapse (risks : List (Option RiskInfo)) :
    ∀ (i : Nat) (hh : Heap) (rr : Nat), rr < hh.length →
      overlayLoopImp i hh rr risks = writeSlice hh rr (overlayLoop i (readSlice hh rr) risks) := by
  induction risks with
  | nil =>
    intro i hh rr hrr
    rw [overlayLoopImp, overlayLoop, writeSlice_readSlice_self hh rr hrr]
  | cons risk rest ih =>
    intro i hh rr hrr
    cases risk with
    | none =>
      rw [overlayLoopImp, overlayLoop]
      exact ih (i + 1) hh rr hrr
    | some ri =>
      rw [overlayLoopImp, overlayLoop]
      by_cases hl : ri.level ≠ RiskNone
      · rw [if_pos hl]
        have hrr' : rr < (writeSlice hh rr (updateRisk (readSlice hh rr) i ri)).length := by
          rw [writeSlice_length]; exact hrr
        rw [ih (i + 1) _ rr hrr', readSlice_writeSlice_self _ _ _ hrr,
          writeSlice_writeSlice]
        have happ : applyRisk (readSlice hh rr) (i, some ri) = updateRisk (readSlice hh rr) i ri := by
          simp [applyRisk, hl]
        rw [happ]
      · rw [if_neg hl]
        have happ : applyRisk (readSlice hh rr) (i, some ri) = readSlice hh rr := by
          simp [applyRisk, hl]
        rw [happ]
        exact ih (i + 1) hh rr hrr

theorem applyRisk_cons_zero (x : CmdOption) (xs : List CmdOption) (r : Option RiskInfo) :
    applyRisk (x :: xs) (0, r) = overlayOne x r :: xs := by
  cases r with
  | none => rfl
  | some ri =>
    by_cases hl : ri.level ≠ RiskNone
    · simp [applyRisk, overlayOne, hl, updateRisk]
    · simp [applyRisk, overlayOne, hl]

theorem updateRisk_cons_succ (y : CmdOption) (xs : List CmdOption) (i : Nat) (ri : RiskInfo) :
    updateRisk (y :: xs) (i + 1) ri = y :: updateRisk xs i ri := by
  unfold updateRisk
  rw [List.getElem?_cons_succ]
  cases hx : xs[i]? with
  | none => rfl
  | some o => simp

theorem applyRisk_cons_succ (y : CmdOption) (xs : List CmdOption) (i : Nat)
    (r : Option RiskInfo) : applyRisk (y :: xs) (i + 1, r) = y :: applyRisk xs (i, r) := by
  cases r with
  | none => rfl
  | some ri =>
    simp only [applyRisk]
    split_ifs with hl
    · exact updateRisk_cons_succ y xs i ri
    · rfl

theorem overlayLoop_cons_shift (risks : List (Option RiskInfo)) :
    ∀ (i : Nat) (y : CmdOption) (xs : List CmdOption),
      overlayLoop (i + 1) (y :: xs) risks = y :: overlayLoop i xs risks := by
  induction risks with
  | nil => intro i y xs; rfl
  | cons r rest ih =>
    intro i y xs
    rw [overlayLoop, applyRisk_cons_succ, ih, overlayLoop]

theorem overlayLoop_eq_zipWith (risks : List (Option RiskInfo)) :
    ∀ (xs : List CmdOption), risks.length = xs.length →
      overlayLoop 0 xs risks = List.zipWith overlayOne xs risks := by
  induction risks with
  | nil =>
    intro xs hl
    cases xs with
    | nil => rfl
    | cons x xs => simp at hl
  | cons r rest ih =>
    intro xs hl
    cases xs with
    | nil => simp at hl
    | cons x xs =>
      simp only [List.length_cons, Nat.succ.injEq] at hl
      rw [overlayLoop, applyRisk_cons_zero, overlayLoop_cons_shift, ih xs hl,
        List.zipWith_cons_cons]

/-! ## Characterizations of `EvaluateSafety` -/

theorem EvaluateSafety_ok_length (options : List CmdOption)
    (call : Except String (List CommandRisk)) (out : List CmdOption)
    (hok : EvaluateSafety options call = Except.ok out) : out.length = options.length := by
  unfold EvaluateSafety at hok
  cases hev : Evaluate (options.map (·.command)) call with
  | error e => rw [hev] at hok; cases hok
  | ok risks =>
    rw [hev] at hok
    cases hok
    rw [overlayLoop_length]

theorem EvaluateSafetyImp_eq (h : Heap) (r : Nat)
    (call : Except String (List CommandRisk)) :
    EvaluateSafetyImp h r call =
      match EvaluateSafety (readSlice h r) call with
      | Except.error e => (h, Except.error e)
      | Except.ok out => (h ++ [out], Except.ok h.length) := by
  unfold EvaluateSafetyImp EvaluateSafety
  cases hev : Evaluate ((readSlice h r).map (·.command)) call with
  | error e => rfl
  | ok risks =>
    simp only [allocSlice]
    have hlen : h.length < (h ++ [readSlice h r]).length := by simp
    rw [overlayLoopImp_collapse risks 0 _ _ hlen, readSlice_concat_self, writeSlice,
      list_set_concat_self]

theorem EvaluateSafety_ok_of_length (options : List CmdOption) (evals : List CommandRisk)
    (hl : evals.length = options.length) :
    EvaluateSafety options (Except.ok evals) =
      Except.ok (List.zipWith overlayOne options (evals.map evalToRisk)) := by
  unfold EvaluateSafety Evaluate
  by_cases h0 : (options.map (·.command)).length = 0
  · have hopt : options = [] := by
      cases options with
      | nil => rfl
      | cons x xs => simp at h0
    have hev : evals = [] := by
      cases evals with
      | nil => rfl
      | cons e es => subst hopt; simp at hl
    subst hopt; subst hev
    rfl
  · rw [if_neg h0]
    have hlen' : evals.length ≠ (options.map (·.command)).length → False := by
      intro hne
      rw [List.length_map] at hne
      exact hne hl
    simp only [List.length_map]
    rw [if_neg (by rw [Decidable.not_not]; exact hl)]
    show Except.ok (overlayLoop 0 options (List.map evalToRisk evals)) =
      Except.ok (List.zipWith overlayOne options (List.map evalToRisk evals))
    rw [overlayLoop_eq_zipWith (List.map evalToRisk evals) options
      (by rw [List.length_map]; exact hl)]

theorem overlayOne_evalToRisk (o : CmdOption) (e : CommandRisk) :
    overlayOne o (evalToRisk e) =
      { o with risk := if parseRiskLevel e.risk_level = RiskNone then o.risk
          else some { level := parseRiskLevel e.risk_level, message := e.reason } } := by
  unfold evalToRisk overlayOne
  by_cases hp : parseRiskLevel e.risk_level = RiskNone
  · simp [hp]
  · simp [hp]

/-! ## Claim C1 -/

/-- Claim C1, amended: for every candidate batch and every successful evaluator
response of matching length, `EvaluateSafety` returns a batch of the same
length and order in which each candidate's title, command and description equal
the input's, and the risk field is set from the positional evaluator result
when it parses to low or high, and left equal to the input candidate's risk
field — hence absent for freshly generated candidates — when the evaluator
reports level `none` for that position. -/
theorem C1_evaluateSafety_positional (options : List CmdOption) (evals : List CommandRisk)
    (hl : evals.length = options.length) :
    ∃ out, EvaluateSafety options (Except.ok evals) = Except.ok out ∧
      out.length = options.length ∧
      ∀ i, i < options.length →
        ∃ o oin e, out[i]? = some o ∧ options[i]? = some oin ∧ evals[i]? = some e ∧
          o.title = oin.title ∧ o.command = oin.command ∧ o.description = oin.description ∧
          o.risk = (if parseRiskLevel e.risk_level = RiskNone then oin.risk
            else some { level := parseRiskLevel e.risk_level, message := e.reason }) := by
  refine ⟨List.zipWith overlayOne options (evals.map evalToRisk),
    EvaluateSafety_ok_of_length options evals hl, ?_, ?_⟩
  · rw [List.length_zipWith, List.length_map, hl, Nat.min_self]
  · intro i hi
    have hie : i < evals.length := by rw [hl]; exact hi
    have h1 : options[i]? = some (options[i]) := List.getElem?_eq_getElem hi
    have h2 : evals[i]? = some (evals[i]) := List.getElem?_eq_getElem hie
    have h3 : (List.map evalToRisk evals)[i]? = some (evalToRisk (evals[i])) := by
      rw [List.getElem?_map, h2]; rfl
    have h4 : (List.zipWith overlayOne options (List.map evalToRisk evals))[i]?
        = some (overlayOne (options[i]) (evalToRisk (evals[i]))) := by
      rw [List.getElem?_zipWith', h1, h3]; rfl
    refine ⟨_, _, _, h4, h1, h2, ?_, ?_, ?_, ?_⟩
    · rw [overlayOne_evalToRisk]
    · rw [overlayOne_evalToRisk]
    · rw [overlayOne_evalToRisk]
    · rw [overlayOne_evalToRisk]

/-- Witness for C1: the theorem applied to a concrete one-candidate batch with
a `high` evaluation. -/
theorem C1_evaluateSafety_positional_witness :
    ∃ out, EvaluateSafety [⟨"t", "c", "d", none⟩]
        (Except.ok [⟨"c", "high", "danger"⟩]) = Except.ok out ∧
      out.length = [(⟨"t", "c", "d", none⟩ : CmdOption)].length ∧
      ∀ i, i < [(⟨"t", "c", "d", none⟩ : CmdOption)].length →
        ∃ o oin e, out[i]? = some o ∧
          [(⟨"t", "c", "d", none⟩ : CmdOption)][i]? = some oin ∧
          [(⟨"c", "high", "danger"⟩ : CommandRisk)][i]? = some e ∧
          o.title = oin.title ∧ o.command = oin.command ∧ o.description = oin.description ∧
          o.risk = (if parseRiskLevel e.risk_level = RiskNone then oin.risk
            else some { level := parseRiskLevel e.risk_level, message := e.reason }) :=
  C1_evaluateSafety_positional [⟨"t", "c", "d", none⟩] [⟨"c", "high", "danger"⟩] rfl

/-- Counterexample to C1 as stated: on a candidate that already carries a risk
annotation, an evaluator verdict of `none` leaves the annotation in place, so
the output risk field is not absent even though the evaluator reported level
`none` for that position. -/
theorem C1_none_keeps_input_risk_cex :
    EvaluateSafety [⟨"t", "c", "d", some ⟨RiskLow, "m"⟩⟩]
        (Except.ok [⟨"c", "none", "r"⟩])
      = Except.ok [⟨"t", "c", "d", some ⟨RiskLow, "m"⟩⟩] ∧
    parseRiskLevel "none" = RiskNone ∧
    (some (⟨RiskLow, "m"⟩ : RiskInfo) ≠ (none : Option RiskInfo)) := by
  refine ⟨rfl, rfl, by decide⟩

/-! ## Claim C2 -/

/-- Claim C2: the safety pass never mutates the candidate batch it is given.
For every heap and every live input slice, after `EvaluateSafetyImp` returns —
whether with a result or with an error — the input slice (and every other
pre-existing slice) reads back unchanged, so every element keeps its title,
command, description and risk; in the success case the annotations are carried
by a freshly allocated slice whose reference lies outside the pre-existing
heap. -/
theorem C2_evaluateSafety_no_mutation (h : Heap) (r : Nat)
    (call : Except String (List CommandRisk)) (hr : r < h.length) :
    readSlice (EvaluateSafetyImp h r call).1 r = readSlice h r ∧
    (∀ r', r' < h.length → readSlice (EvaluateSafetyImp h r call).1 r' = readSlice h r') ∧
    (∀ rr, (EvaluateSafetyImp h r call).2 = Except.ok rr → rr = h.length) := by
  rw [EvaluateSafetyImp_eq]
  cases hes : EvaluateSafety (readSlice h r) call with
  | error e =>
    exact ⟨rfl, fun r' _ => rfl, fun rr hrr => by cases hrr⟩
  | ok out =>
    refine ⟨readSlice_append_left h [out] r hr,
      fun r' hr' => readSlice_append_left h [out] r' hr',
      fun rr hrr => ?_⟩
    cases hrr
    rfl

/-- Witness for C2: the theorem applied to a one-slice heap and a successful
`high` evaluation. -/
theorem C2_evaluateSafety_no_mutation_witness :
    readSlice (EvaluateSafetyImp [[⟨"t", "c", "d", none⟩]] 0
        (Except.ok [⟨"c", "high", "danger"⟩])).1 0
      = readSlice [[⟨"t", "c", "d", none⟩]] 0 ∧
    (∀ r', r' < ([[⟨"t", "c", "d", none⟩]] : Heap).length →
      readSlice (EvaluateSafetyImp [[⟨"t", "c", "d", none⟩]] 0
          (Except.ok [⟨"c", "high", "danger"⟩])).1 r'
        = readSlice [[⟨"t", "c", "d", none⟩]] r') ∧
    (∀ rr, (EvaluateSafetyImp [[⟨"t", "c", "d", none⟩]] 0
        (Except.ok [⟨"c", "high", "danger"⟩])).2 = Except.ok rr →
      rr = ([[⟨"t", "c", "d", none⟩]] : Heap).length) :=
  C2_evaluateSafety_no_mutation [[⟨"t", "c", "d", none⟩]] 0
    (Except.ok [⟨"c", "high", "danger"⟩]) (by decide)

/-- Unfolding `LoadingModel.update` on a successful `optionsMsg`. -/
theorem LoadingModel.update_optionsResult_ok (h : Heap) (m : LoadingModel) (r : Nat) :
    LoadingModel.update h m (Msg.optionsResult r none) =
      if (readSlice h r).length = 0 then
        (h, Model.loading { m with err := some "no options generated" }, Cmd.quit)
      else (h, Model.selector (NewSelector r), SelectorModel.initCmd) :=
  rfl

/-! ## Claim C3 -/

/-- Claim C3: generation fails whenever the external generation call errors or
returns a batch of size 0; in that case the Progress (loading) stage exits with
the error retained in its `err` field for the caller, and the resulting model
is still the loading stage — no Selection stage is constructed.  With one or
more candidates it hands the freshly generated batch to a new Selection
stage. -/
theorem C3_loading_terminal (h : Heap) (m : LoadingModel)
    (call : Except String (List LLMCommandOption)) :
    (∀ e, call = Except.error e →
      LoadingModel.loadStep h m call =
        (h, Model.loading { m with err := some ("failed to generate options: " ++ e) },
          Cmd.quit)) ∧
    (call = Except.ok [] →
      LoadingModel.loadStep h m call =
        (h ++ [[]], Model.loading { m with err := some "no options generated" }, Cmd.quit)) ∧
    (∀ opts, call = Except.ok opts → opts ≠ [] →
      LoadingModel.loadStep h m call =
        (h ++ [opts.map fun o => ⟨o.title, o.command, o.description, none⟩],
          Model.selector (NewSelector h.length), SelectorModel.initCmd) ∧
      readSlice (LoadingModel.loadStep h m call).1 (NewSelector h.length).optionsRef
        = opts.map fun o => ⟨o.title, o.command, o.description, none⟩) := by
  refine ⟨?_, ?_, ?_⟩
  · intro e hcall
    subst hcall
    rfl
  · intro hcall
    subst hcall
    unfold LoadingModel.loadStep LoadingModel.loadOptionsRun Generate
    simp only [List.map_nil, allocSlice]
    rw [LoadingModel.update_optionsResult_ok, readSlice_concat_self]
    rfl
  · intro opts hcall hne
    subst hcall
    have hstep : LoadingModel.loadStep h m (Except.ok opts) =
        (h ++ [opts.map fun o => ⟨o.title, o.command, o.description, none⟩],
          Model.selector (NewSelector h.length), SelectorModel.initCmd) := by
      unfold LoadingModel.loadStep LoadingModel.loadOptionsRun Generate
      simp only [allocSlice]
      rw [LoadingModel.update_optionsResult_ok, readSlice_concat_self]
      rw [if_neg (by
        rw [List.length_map]
        intro h0
        exact hne (List.length_eq_zero.mp h0))]
    refine ⟨hstep, ?_⟩
    rw [hstep]
    exact readSlice_concat_self h _

/-- Witness for C3: the theorem applied to the empty heap with an errored
call, an empty batch, and a singleton batch. -/
theorem C3_loading_terminal_witness :
    LoadingModel.loadStep [] (NewLoadingModel "q") (Except.error "api down") =
      ([], Model.loading
        { NewLoadingModel "q" with err := some "failed to generate options: api down" },
        Cmd.quit) ∧
    LoadingModel.loadStep [] (NewLoadingModel "q") (Except.ok []) =
      ([[]], Model.loading { NewLoadingModel "q" with err := some "no options generated" },
        Cmd.quit) ∧
    LoadingModel.loadStep [] (NewLoadingModel "q") (Except.ok [⟨"t", "c", "d"⟩]) =
      ([[⟨"t", "c", "d", none⟩]], Model.selector (NewSelector 0), SelectorModel.initCmd) := by
  refine ⟨?_, ?_, ?_⟩
  · exact (C3_loading_terminal [] (NewLoadingModel "q") (Except.error "api down")).1
      "api down" rfl
  · exact (C3_loading_terminal [] (NewLoadingModel "q") (Except.ok [])).2.1 rfl
  · exact ((C3_loading_terminal [] (NewLoadingModel "q")
      (Except.ok [⟨"t", "c", "d"⟩])).2.2 [⟨"t", "c", "d"⟩] rfl (by decide)).1

/-! ## Claims C4 and C5 -/

theorem SelectorModel.riskStep_err (h : Heap) (m : SelectorModel)
    (call : Except String (List CommandRisk)) (e : String)
    (hes : EvaluateSafety (readSlice h m.optionsRef) call = Except.error e) :
    SelectorModel.riskStep h m call = (h, { m with safetyDone := true }, Cmd.nil) := by
  unfold SelectorModel.riskStep SelectorModel.evaluateSafetyRun
  rw [EvaluateSafetyImp_eq, hes]
  rfl

theorem SelectorModel.riskStep_ok (h : Heap) (m : SelectorModel)
    (call : Except String (List CommandRisk)) (out : List CmdOption)
    (hes : EvaluateSafety (readSlice h m.optionsRef) call = Except.ok out) :
    SelectorModel.riskStep h m call =
      (h ++ [out], { m with safetyDone := true, optionsRef := h.length }, Cmd.nil) := by
  unfold SelectorModel.riskStep SelectorModel.evaluateSafetyRun
  rw [EvaluateSafetyImp_eq, hes]
  rfl

/-- Claim C4: when the background safety evaluation completes with an error,
the Selection stage sets its completed flag, leaves the candidate batch
completely untouched, and surfaces nothing but the flag (no model field other
than the flag changes, the returned command is `nil`, and a subsequent spinner
tick is inert); when it completes successfully, the candidate batch reference
is replaced wholesale by the annotated batch, which has the same length as the
input. -/
theorem C4_selector_safety_completion (h : Heap) (m : SelectorModel)
    (call : Except String (List CommandRisk)) :
    (SelectorModel.riskStep h m call).2.1.safetyDone = true ∧
    (SelectorModel.riskStep h m call).2.1.cursor = m.cursor ∧
    (SelectorModel.riskStep h m call).2.1.selected = m.selected ∧
    (SelectorModel.riskStep h m call).2.1.quitting = m.quitting ∧
    (SelectorModel.riskStep h m call).2.2 = Cmd.nil ∧
    (∀ e, EvaluateSafety (readSlice h m.optionsRef) call = Except.error e →
      (SelectorModel.riskStep h m call).2.1.optionsRef = m.optionsRef ∧
      readSlice (SelectorModel.riskStep h m call).1 m.optionsRef
        = readSlice h m.optionsRef) ∧
    (∀ out, EvaluateSafety (readSlice h m.optionsRef) call = Except.ok out →
      readSlice (SelectorModel.riskStep h m call).1
        (SelectorModel.riskStep h m call).2.1.optionsRef = out ∧
      out.length = (readSlice h m.optionsRef).length) ∧
    SelectorModel.update (SelectorModel.riskStep h m call).1
        (SelectorModel.riskStep h m call).2.1 Msg.spinnerTick
      = ((SelectorModel.riskStep h m call).1, (SelectorModel.riskStep h m call).2.1,
        Cmd.nil) := by
  cases hes : EvaluateSafety (readSlice h m.optionsRef) call with
  | error e =>
    rw [SelectorModel.riskStep_err h m call e hes]
    refine ⟨rfl, rfl, rfl, rfl, rfl, ?_, ?_, rfl⟩
    · intro e' he'
      exact ⟨rfl, rfl⟩
    · intro out hout
      cases hout
  | ok out =>
    rw [SelectorModel.riskStep_ok h m call out hes]
    refine ⟨rfl, rfl, rfl, rfl, rfl, ?_, ?_, rfl⟩
    · intro e' he'
      cases he'
    · intro out' hout'
      cases hout'
      exact ⟨readSlice_concat_self h out,
        EvaluateSafety_ok_length (readSlice h m.optionsRef) call out hes⟩

/-- Witness for C4: a successful `low` evaluation on a one-candidate batch
sets the flag and replaces the batch with the annotated copy. -/
theorem C4_selector_safety_completion_witness :
    (SelectorModel.riskStep [[⟨"t", "c", "d", none⟩]] (NewSelector 0)
      (Except.ok [⟨"c", "low", "x"⟩])).2.1.safetyDone = true ∧
    readSlice (SelectorModel.riskStep [[⟨"t", "c", "d", none⟩]] (NewSelector 0)
        (Except.ok [⟨"c", "low", "x"⟩])).1
      (SelectorModel.riskStep [[⟨"t", "c", "d", none⟩]] (NewSelector 0)
        (Except.ok [⟨"c", "low", "x"⟩])).2.1.optionsRef
      = [⟨"t", "c", "d", some ⟨RiskLow, "x"⟩⟩] := by
  have T := C4_selector_safety_completion [[⟨"t", "c", "d", none⟩]] (NewSelector 0)
    (Except.ok [⟨"c", "low", "x"⟩])
  exact ⟨T.1, (T.2.2.2.2.2.2.1 [⟨"t", "c", "d", some ⟨RiskLow, "x"⟩⟩] rfl).1⟩

/-- Claim C5: a safety-evaluation result processed after the user has frozen a
selection with enter never changes the frozen selection: the stored pointer and
the candidate it dereferences to (title, command, description, risk) are
identical before and after processing the late message, even though a
successful result still replaces the in-memory candidate list. -/
theorem C5_frozen_selection (h : Heap) (m : SelectorModel)
    (call : Except String (List CommandRisk)) (p : Nat × Nat)
    (hsel : m.selected = some p) (hp : p.1 < h.length) :
    (SelectorModel.riskStep h m call).2.1.selected = m.selected ∧
    SelectorModel.selectedOption (SelectorModel.riskStep h m call).1
        (SelectorModel.riskStep h m call).2.1
      = SelectorModel.selectedOption h m ∧
    (∀ out, EvaluateSafety (readSlice h m.optionsRef) call = Except.ok out →
      readSlice (SelectorModel.riskStep h m call).1
        (SelectorModel.riskStep h m call).2.1.optionsRef = out) := by
  cases hes : EvaluateSafety (readSlice h m.optionsRef) call with
  | error e =>
    rw [SelectorModel.riskStep_err h m call e hes]
    refine ⟨rfl, rfl, ?_⟩
    intro out hout
    cases hout
  | ok out =>
    rw [SelectorModel.riskStep_ok h m call out hes]
    refine ⟨rfl, ?_, ?_⟩
    · show Option.bind m.selected (fun q => (readSlice (h ++ [out]) q.1)[q.2]?)
        = Option.bind m.selected (fun q => (readSlice h q.1)[q.2]?)
      rw [hsel]
      show (readSlice (h ++ [out]) p.1)[p.2]? = (readSlice h p.1)[p.2]?
      rw [readSlice_append_left h [out] p.1 hp]
    · intro out' hout'
      cases hout'
      exact readSlice_concat_self h out

/-- Witness for C5: with the second candidate frozen, a late successful
result leaves the frozen selection intact. -/
theorem C5_frozen_selection_witness :
    (SelectorModel.riskStep [[⟨"t1", "c1", "d1", none⟩, ⟨"t2", "c2", "d2", none⟩]]
      { optionsRef := 0, cursor := 1, selected := some (0, 1), quitting := true,
        safetyDone := false, spinner := 0 }
      (Except.ok [⟨"c1", "none", "a"⟩, ⟨"c2", "high", "b"⟩])).2.1.selected
      = some (0, 1) ∧
    SelectorModel.selectedOption
      (SelectorModel.riskStep [[⟨"t1", "c1", "d1", none⟩, ⟨"t2", "c2", "d2", none⟩]]
        { optionsRef := 0, cursor := 1, selected := some (0, 1), quitting := true,
          safetyDone := false, spinner := 0 }
        (Except.ok [⟨"c1", "none", "a"⟩, ⟨"c2", "high", "b"⟩])).1
      (SelectorModel.riskStep [[⟨"t1", "c1", "d1", none⟩, ⟨"t2", "c2", "d2", none⟩]]
        { optionsRef := 0, cursor := 1, selected := some (0, 1), quitting := true,
          safetyDone := false, spinner := 0 }
        (Except.ok [⟨"c1", "none", "a"⟩, ⟨"c2", "high", "b"⟩])).2.1
      = some ⟨"t2", "c2", "d2", none⟩ := by
  have T := C5_frozen_selection [[⟨"t1", "c1", "d1", none⟩, ⟨"t2", "c2", "d2", none⟩]]
    { optionsRef := 0, cursor := 1, selected := some (0, 1), quitting := true,
      safetyDone := false, spinner := 0 }
    (Except.ok [⟨"c1", "none", "a"⟩, ⟨"c2", "high", "b"⟩]) (0, 1) rfl (by decide)
  exact ⟨T.1, by rw [T.2.1]; rfl⟩

/-! ## Claim C6 -/

/-- Claim C6, amended: the generation call's validation rejects only an empty
batch: an empty parsed `options` array is an error, while any non-empty batch
— including one shorter than the requested 3 — is returned as-is.  (The
prompt asks for exactly 3, but neither the client nor the loading stage
enforces the count.) -/
theorem C6_only_empty_batch_rejected (parsed : List LLMCommandOption) :
    (parsed = [] → GenerateOptionsValidate parsed = Except.error "no options returned") ∧
    (parsed ≠ [] → GenerateOptionsValidate parsed = Except.ok parsed) := by
  constructor
  · intro hp
    subst hp
    rfl
  · intro hp
    unfold GenerateOptionsValidate
    rw [if_neg (fun h0 => hp (List.length_eq_zero.mp h0))]

/-- Witness for C6: the empty batch is rejected, a singleton batch is
accepted. -/
theorem C6_only_empty_batch_rejected_witness :
    GenerateOptionsValidate [] = Except.error "no options returned" ∧
    GenerateOptionsValidate [⟨"t", "c", "d"⟩] = Except.ok [⟨"t", "c", "d"⟩] :=
  ⟨(C6_only_empty_batch_rejected []).1 rfl,
    (C6_only_empty_batch_rejected [⟨"t", "c", "d"⟩]).2 (by decide)⟩

/-- Counterexample to C6 as stated: a batch of 2 — shorter than the requested
count of 3 — is not treated as failure: the client validation accepts it and
the Progress stage hands it to a Selection stage instead of failing. -/
theorem C6_short_batch_accepted_cex :
    ([(⟨"t1", "c1", "d1"⟩ : LLMCommandOption), ⟨"t2", "c2", "d2"⟩].length = 2) ∧
    GenerateOptionsValidate [⟨"t1", "c1", "d1"⟩, ⟨"t2", "c2", "d2"⟩]
      = Except.ok [⟨"t1", "c1", "d1"⟩, ⟨"t2", "c2", "d2"⟩] ∧
    (LoadingModel.loadStep [] (NewLoadingModel "q")
        (Except.ok [⟨"t1", "c1", "d1"⟩, ⟨"t2", "c2", "d2"⟩])).2.1
      = Model.selector (NewSelector 0) ∧
    (LoadingModel.loadStep [] (NewLoadingModel "q")
        (Except.ok [⟨"t1", "c1", "d1"⟩, ⟨"t2", "c2", "d2"⟩])).2.2
      = SelectorModel.initCmd := by
  refine ⟨rfl, rfl, rfl, rfl⟩

/-! ## Claim C7 -/

/-- Claim C7, amended: pressing enter with an empty buffer does not submit —
the model stays in the Input stage (only its `query` mirror of the buffer is
refreshed) and no command is issued, so the generator is never invoked; with
any non-empty buffer, including one consisting only of whitespace, the query
is submitted as-is to a fresh Progress stage whose init command fires the
generation call. -/
theorem C7_input_submit (m : InputModel) :
    (m.value = "" →
      InputModel.update m InputMsg.keyEnter
        = (Model.input { m with query := m.value }, Cmd.nil)) ∧
    (m.value ≠ "" →
      InputModel.update m InputMsg.keyEnter
        = (Model.loading (NewLoadingModel m.value), LoadingModel.initCmd)) := by
  constructor
  · intro hv
    unfold InputModel.update
    rw [if_neg (fun hne => hne hv)]
  · intro hv
    unfold InputModel.update
    rw [if_pos hv]

/-- Witness for C7: the empty buffer stays put; the buffer `"ls"` submits. -/
theorem C7_input_submit_witness :
    InputModel.update { value := "", submitted := false, query := "x" } InputMsg.keyEnter
      = (Model.input { value := "", submitted := false, query := "" }, Cmd.nil) ∧
    InputModel.update { value := "ls", submitted := false, query := "" } InputMsg.keyEnter
      = (Model.loading (NewLoadingModel "ls"), LoadingModel.initCmd) :=
  ⟨(C7_input_submit { value := "", submitted := false, query := "x" }).1 rfl,
    (C7_input_submit { value := "ls", submitted := false, query := "" }).2 (by decide)⟩

/-- Counterexample to C7 as stated: a buffer holding a single space — a
whitespace-only query — is submitted on enter: the stage transitions to
loading with query `" "` and its init command fires the generation call. -/
theorem C7_whitespace_submitted_cex :
    (" ").toList = [' '] ∧ (' ').isWhitespace = true ∧ (" ") ≠ "" ∧
    InputModel.update { value := " ", submitted := false, query := "" } InputMsg.keyEnter
      = (Model.loading (NewLoadingModel " "), LoadingModel.initCmd) ∧
    LoadingModel.initCmd = Cmd.batch Cmd.tick Cmd.loadOptions := by
  refine ⟨rfl, by decide, by decide, rfl, rfl⟩

/-! ## Claim C8 -/

/-- Claim C8: in shell-function output mode, dispatching a selected command
appends exactly the command text followed by one newline to stdout — nothing
else — and reports no error, for every prior stdout content, every clipboard
backend state, and every candidate. -/
theorem C8_shell_function_exact (b : ClipboardBackends) (stdout : String) (c : CmdOption) :
    Output "shell-function" b stdout c = (stdout ++ c.command ++ "\n", none) := by
  unfold Output
  rw [if_pos rfl]
  rfl

/-! ## Claim C9 -/

theorem selector_update_key_heap (h : Heap) (m : SelectorModel) (s : String) :
    (SelectorModel.update h m (Msg.key s)).1 = h := by
  simp only [SelectorModel.update]
  split_ifs <;> rfl

theorem selector_update_key_optionsRef (h : Heap) (m : SelectorModel) (s : String) :
    (SelectorModel.update h m (Msg.key s)).2.1.optionsRef = m.optionsRef := by
  simp only [SelectorModel.update]
  split_ifs <;> rfl

theorem selector_update_key_cursor_lt (h : Heap) (m : SelectorModel) (s : String)
    (hc : m.cursor < (readSlice h m.optionsRef).length) :
    (SelectorModel.update h m (Msg.key s)).2.1.cursor
      < (readSlice h m.optionsRef).length := by
  simp only [SelectorModel.update]
  split_ifs <;> dsimp only <;> omega

theorem applyKeys_heap (keys : List String) :
    ∀ (h : Heap) (m : SelectorModel), (SelectorModel.applyKeys h m keys).1 = h := by
  induction keys with
  | nil => intro h m; rfl
  | cons s rest ih =>
    intro h m
    rw [SelectorModel.applyKeys, ih, selector_update_key_heap]

theorem applyKeys_optionsRef (keys : List String) :
    ∀ (h : Heap) (m : SelectorModel),
      (SelectorModel.applyKeys h m keys).2.optionsRef = m.optionsRef := by
  induction keys with
  | nil => intro h m; rfl
  | cons s rest ih =>
    intro h m
    rw [SelectorModel.applyKeys, ih, selector_update_key_optionsRef]

theorem applyKeys_cursor_lt (keys : List String) :
    ∀ (h : Heap) (m : SelectorModel),
      m.cursor < (readSlice h m.optionsRef).length →
      (SelectorModel.applyKeys h m keys).2.cursor
        < (readSlice h m.optionsRef).length := by
  induction keys with
  | nil => intro h m hc; exact hc
  | cons s rest ih =>
    intro h m hc
    rw [SelectorModel.applyKeys, selector_update_key_heap]
    have hr := selector_update_key_optionsRef h m s
    have hc' : (SelectorModel.update h m (Msg.key s)).2.1.cursor
        < (readSlice h (SelectorModel.update h m (Msg.key s)).2.1.optionsRef).length := by
      rw [hr]
      exact selector_update_key_cursor_lt h m s hc
    have := ih h (SelectorModel.update h m (Msg.key s)).2.1 hc'
    rw [hr] at this
    exact this

/-- Claim C9: in the Selection stage, for every non-empty candidate batch, the
cursor starts at 0, each up/k key press decrements it only when it is greater
than 0, each down/j key press increments it only when it is less than
`len(options) - 1`, and under every sequence of key presses from the initial
model the cursor stays inside `[0, len(options) - 1]` — no wraparound at
either end. -/
theorem C9_cursor_clamped (h : Heap) (r : Nat) (hne : 0 < (readSlice h r).length) :
    (NewSelector r).cursor = 0 ∧
    (∀ (m : SelectorModel) (s : String), s = "up" ∨ s = "k" →
      (SelectorModel.update h m (Msg.key s)).2.1.cursor
        = (if 0 < m.cursor then m.cursor - 1 else m.cursor)) ∧
    (∀ (m : SelectorModel) (s : String), s = "down" ∨ s = "j" →
      (SelectorModel.update h m (Msg.key s)).2.1.cursor
        = (if m.cursor < (readSlice h m.optionsRef).length - 1 then m.cursor + 1
           else m.cursor)) ∧
    (∀ keys : List String,
      (SelectorModel.applyKeys h (NewSelector r) keys).2.cursor
        < (readSlice h r).length) := by
  refine ⟨rfl, ?_, ?_, ?_⟩
  · intro m s hs
    cases hs with
    | inl hup => subst hup; rfl
    | inr hk => subst hk; rfl
  · intro m s hs
    cases hs with
    | inl hdown => subst hdown; rfl
    | inr hj => subst hj; rfl
  · intro keys
    have h0 : (NewSelector r).cursor < (readSlice h (NewSelector r).optionsRef).length :=
      hne
    have := applyKeys_cursor_lt keys h (NewSelector r) h0
    exact this

/-- Witness for C9: a two-candidate batch clamped at both ends under the key
sequence up, down, down, down, j, k. -/
theorem C9_cursor_clamped_witness :
    (NewSelector 0).cursor = 0 ∧
    (SelectorModel.applyKeys [[⟨"t1", "c1", "d1", none⟩, ⟨"t2", "c2", "d2", none⟩]]
        (NewSelector 0) ["up", "down", "down", "down", "j", "k"]).2.cursor
      < (readSlice [[⟨"t1", "c1", "d1", none⟩, ⟨"t2", "c2", "d2", none⟩]] 0).length := by
  have T := C9_cursor_clamped [[⟨"t1", "c1", "d1", none⟩, ⟨"t2", "c2", "d2", none⟩]] 0
    (by decide)
  exact ⟨T.1, T.2.2.2 ["up", "down", "down", "down", "j", "k"]⟩

/-! ## Claim C10 -/

/-- Claim C10: any `risk_level` string returned by the safety call other than
exactly `"low"` or `"high"` — including `"none"`, the empty string,
capitalised variants, or malformed values — parses to `RiskNone`, and through
`Evaluate` the corresponding position gets no risk annotation (`nil`) while
the call still succeeds rather than erroring or warning. -/
theorem C10_unknown_level_is_none (cmds : List String) (evals : List CommandRisk)
    (hl : evals.length = cmds.length) (i : Nat) (hi : i < evals.length)
    (hlow : (evals[i]).risk_level ≠ "low")
    (hhigh : (evals[i]).risk_level ≠ "high") :
    parseRiskLevel ((evals[i]).risk_level) = RiskNone ∧
    ∃ out, Evaluate cmds (Except.ok evals) = Except.ok out ∧ out[i]? = some none := by
  have hparse : parseRiskLevel ((evals[i]).risk_level) = RiskNone := by
    unfold parseRiskLevel
    rw [if_neg hlow, if_neg hhigh]
  refine ⟨hparse, evals.map evalToRisk, ?_, ?_⟩
  · unfold Evaluate
    rw [if_neg (by
      intro h0
      rw [← hl] at h0
      omega)]
    show (if evals.length ≠ cmds.length then
        Except.error ("expected " ++ toString cmds.length ++ " evaluations, got "
          ++ toString evals.length)
      else Except.ok (evals.map evalToRisk)) = Except.ok (evals.map evalToRisk)
    rw [if_neg (by rw [Decidable.not_not]; exact hl)]
  · rw [List.getElem?_map, List.getElem?_eq_getElem hi]
    show some (evalToRisk (evals[i])) = some none
    unfold evalToRisk
    rw [hparse]
    rfl

/-- Witness for C10: a capitalised `"NONE"` verdict yields a successful
evaluation with no annotation at that position. -/
theorem C10_unknown_level_is_none_witness :
    parseRiskLevel (([⟨"rm -rf /", "NONE", "capitalised"⟩] :
        List CommandRisk).get ⟨0, by decide⟩).risk_level = RiskNone ∧
    ∃ out, Evaluate ["rm -rf /"] (Except.ok [⟨"rm -rf /", "NONE", "capitalised"⟩])
      = Except.ok out ∧ out[0]? = some none :=
  C10_unknown_level_is_none ["rm -rf /"] [⟨"rm -rf /", "NONE", "capitalised"⟩]
    rfl 0 (by decide) (by decide) (by decide)

end OneLm
